import Mathlib

/-!
Shallow embedding of the gosu self-update component (package `gosu`).

The Go sources embedded here are `gosu.go` (the current `UpdateResult`-based
API: `CheckUpdates`, `DownloadAsset`, `CancelAssetDownloading`, `UpdateApp`,
`getDownloadingPercent`) and `utils.go` (`parseSemVer`, `parseHttpError`,
`removeFile`, `createAndRunExtractor`).

External effects (HTTP fetches, the filesystem, the OS identifier, the
concurrent progress poller's file-size observations) are supplied through
explicit environment records; Go panics are modelled as the `.error` side of
`Except GoPanic`.
-/

namespace Gosu

/-! ## Character and string helpers

Go's `strings.Contains` and the version-string manipulation are modelled by
structurally recursive functions over `List Char` so that every definition
reduces inside the kernel. -/

/-- Does `p` occur at the head of `l` (Go `strings.HasPrefix` on char lists)? -/
def listLeadEq : List Char → List Char → Bool
  | [], _ => true
  | _ :: _, [] => false
  | p :: ps, x :: xs => p == x && listLeadEq ps xs

/-- Does `sub` occur as a contiguous run inside `l`? -/
def listHasSub (sub : List Char) : List Char → Bool
  | [] => sub.isEmpty
  | x :: xs => listLeadEq sub (x :: xs) || listHasSub sub xs

/-- Go `strings.Contains s sub`. -/
def goContains (s sub : String) : Bool :=
  listHasSub sub.toList s.toList

/-- Split a char list at every occurrence of `sep` (Go `strings.Split`). -/
def splitCharsAux (sep : Char) : List Char → List Char → List (List Char)
  | [], acc => [acc.reverse]
  | x :: xs, acc =>
    if x == sep then acc.reverse :: splitCharsAux sep xs []
    else splitCharsAux sep xs (x :: acc)

/-- Segments of `cs` between occurrences of `sep`. -/
def splitChars (sep : Char) (cs : List Char) : List (List Char) :=
  splitCharsAux sep cs []

/-- Split at the first occurrence of `sep`: `some (before, after)`, or `none`
when `sep` does not occur. -/
def breakAtChar (sep : Char) : List Char → Option (List Char × List Char)
  | [] => none
  | x :: xs =>
    if x == sep then some ([], xs)
    else (breakAtChar sep xs).map (fun p => (x :: p.1, p.2))

/-- Numeric value of an all-digit char list (only used behind a digit check). -/
def digitsVal (cs : List Char) : Nat :=
  cs.foldl (fun acc c => acc * 10 + (c.toNat - 48)) 0

/-- Strict decimal parse: nonempty, digits only (Go `strconv.ParseUint`,
with the width bound dropped since no claim depends on overflow). -/
def partToNat (cs : List Char) : Option Nat :=
  if cs.isEmpty then none
  else if cs.all Char.isDigit then some (digitsVal cs) else none

/-! ## Semantic versions

`parseSemVer` in `utils.go` delegates to the Masterminds `semver.NewVersion`
parser and the `Version.Equal` / `Version.LessThan` comparison (which compare
major, minor, patch and then the prerelease, ignoring build metadata).  Those
library functions are embedded here directly: an optional leading `v`, a
1-to-3 component dotted numeric core, an optional `-`-introduced prerelease of
dot-separated alphanumeric-or-hyphen identifiers (all-digit identifiers must
not have a leading zero), and optional `+`-introduced build metadata. -/

/-- A prerelease identifier: numeric identifiers compare numerically and are
lower than alphanumeric ones, which compare as ASCII strings. -/
inductive PreId where
  | num (n : Nat)
  | str (s : String)
deriving DecidableEq, Repr

/-- A parsed semantic version. -/
structure SemVer where
  major : Nat
  minor : Nat
  patch : Nat
  pre : List PreId
  metadata : String
deriving DecidableEq, Repr

/-- Characters allowed in prerelease and metadata identifiers. -/
def isIdentChar (c : Char) : Bool :=
  c.isDigit || c.isAlpha || c == '-'

/-- Classify one prerelease identifier; `none` on an invalid identifier
(empty, foreign character, or an all-digit identifier with a leading zero). -/
def classifyPreSegment (cs : List Char) : Option PreId :=
  if cs.isEmpty then none
  else if !(cs.all isIdentChar) then none
  else if cs.all Char.isDigit then
    if cs.length > 1 && cs.head? == some '0' then none
    else some (.num (digitsVal cs))
  else some (.str (String.mk cs))

/-- Validate build metadata: dot-separated, nonempty, identifier chars. -/
def validMetadata (cs : List Char) : Bool :=
  (splitChars '.' cs).all (fun p => !p.isEmpty && p.all isIdentChar)

/-- Parse the dotted numeric core (`1`, `1.2` or `1.2.3`); missing minor and
patch components default to zero. -/
def parseCore (cs : List Char) : Option (Nat × Nat × Nat) :=
  match splitChars '.' cs with
  | [a] => do pure (← partToNat a, 0, 0)
  | [a, b] => do pure (← partToNat a, ← partToNat b, 0)
  | [a, b, c] => do pure (← partToNat a, ← partToNat b, ← partToNat c)
  | _ => none

/-- `parseSemVer` from `utils.go`: `nil` (here `none`) on any parse failure,
the parsed version otherwise.  The logging around the failure is dropped. -/
def parseSemVer (version : String) : Option SemVer :=
  let cs := match version.toList with
    | 'v' :: rest => rest
    | other => other
  let (verMeta, meta) := match breakAtChar '+' cs with
    | none => (cs, ([] : List Char))
    | some (v, m) => (v, m)
  let metaOk := match breakAtChar '+' cs with
    | none => true
    | some (_, m) => validMetadata m
  if !metaOk then none
  else
    let (core, preParts) : List Char × Option (List Char) :=
      match breakAtChar '-' verMeta with
      | none => (verMeta, none)
      | some (c, p) => (c, some p)
    do
      let (mj, mn, pt) ← parseCore core
      let pre ← match preParts with
        | none => some ([] : List PreId)
        | some p => (splitChars '.' p).mapM classifyPreSegment
      pure ⟨mj, mn, pt, pre, String.mk meta⟩

/-- Compare two prerelease identifiers (Masterminds `comparePrePart`). -/
def preIdCompare : PreId → PreId → Ordering
  | .num a, .num b => compare a b
  | .num _, .str _ => .lt
  | .str _, .num _ => .gt
  | .str a, .str b => compare a b

/-- Lexicographic comparison of two nonempty prerelease identifier lists;
running out of identifiers first means lower precedence. -/
def preLex : List PreId → List PreId → Ordering
  | [], [] => .eq
  | [], _ :: _ => .lt
  | _ :: _, [] => .gt
  | a :: as, b :: bs =>
    match preIdCompare a b with
    | .eq => preLex as bs
    | o => o

/-- Masterminds `comparePrerelease`: a version without prerelease is higher
than any version with one. -/
def preCompare : List PreId → List PreId → Ordering
  | [], [] => .eq
  | [], _ :: _ => .gt
  | _ :: _, [] => .lt
  | a :: as, b :: bs => preLex (a :: as) (b :: bs)

/-- Masterminds `Version.Compare`: major, minor, patch, then prerelease;
build metadata is ignored.  `Equal` is `compare = .eq`, `LessThan` is
`compare = .lt`. -/
def semverCompare (a b : SemVer) : Ordering :=
  match compare a.major b.major with
  | .eq =>
    match compare a.minor b.minor with
    | .eq =>
      match compare a.patch b.patch with
      | .eq => preCompare a.pre b.pre
      | o => o
    | o => o
  | o => o

/-! ## Data model (`gosu.go`) -/

/-- The `iota` result codes of `gosu.go`. -/
def CODE_LATEST_VERSION_IS_ALREADY_IN_USE : Nat := 0

/-- `CODE_UNRELEASED_VERSION_IS_IN_USE = iota` (second constant). -/
def CODE_UNRELEASED_VERSION_IS_IN_USE : Nat := 1

/-- `CODE_NEW_VERSION_DETECTED = iota` (third constant). -/
def CODE_NEW_VERSION_DETECTED : Nat := 2

/-- `CODE_DOWNLOADING_CANCELLED = iota` (fourth constant). -/
def CODE_DOWNLOADING_CANCELLED : Nat := 3

/-- `CODE_DOWNLOADING_COMPLETED = iota` (fifth constant). -/
def CODE_DOWNLOADING_COMPLETED : Nat := 4

/-- `CODE_ERROR = iota` (sixth constant). -/
def CODE_ERROR : Nat := 5

/-- Fixed extraction-script file name for Linux. -/
def LINUX_SCRIPT_NAME : String := "update.sh"

/-- Fixed extraction-script file name for Windows. -/
def WIN_SCRIPT_NAME : String := "update.cmd"

/-- Modelled from the spec: the embedded extraction-script bodies
(`scripts/linux.txt`, `scripts/windows.txt`, pulled in with `go:embed`) are
not part of the repository sources; the spec only requires an embedded
platform-specific script text, whose exact content no claim depends on. -/
def linuxScript : String := "<embedded linux extraction script>"

/-- Modelled from the spec: see `linuxScript`. -/
def windowsScript : String := "<embedded windows extraction script>"

/-- `_GhReleaseAsset`: the remote asset fields plus the two session-local
script annotations (zero-valued until selection). -/
structure GhReleaseAsset where
  Name : String
  Url : String
  Size : Nat
  updateScriptName : String := ""
  updateScriptBody : String := ""
deriving DecidableEq, Repr

/-- `_GhRelease`: the latest-release metadata decoded from the registry. -/
structure GhRelease where
  TagName : String
  CreatedAt : String
  Assets : List GhReleaseAsset
  Body : String
deriving DecidableEq, Repr

/-- `UpdateResult`: code, human message, optional details. -/
structure UpdateResult where
  Code : Nat
  Message : String
  Details : String := ""
deriving DecidableEq, Repr

/-- `DownloadingProgress`: one progress sample.  The Go fields are `int`;
all values produced by the program are nonnegative, so `Nat` is used. -/
structure DownloadingProgress where
  TotalSize : Nat
  CurrentSize : Nat
  ProgressPercent : Nat
deriving DecidableEq, Repr

/-- The `Updater` session state.  `cancelDownloading` (a `context.CancelFunc`
that is `nil` until the first `DownloadAsset`) is modelled by the flag
`hasCancelFunc`, and the state of the one-shot token of the current download
context by `cancelled`. -/
structure Updater where
  ReleasesUrl : String
  ChangelogUrl : String
  LocalVersion : String
  GhAccessToken : String
  DownloadChangelog : Bool
  lastRelease : Option GhRelease
  releaseAsset : Option GhReleaseAsset
  hasCancelFunc : Bool
  cancelled : Bool
deriving DecidableEq, Repr

/-- `New` constructs a fresh session; the private fields start at their Go
zero values (`nil` pointers, `false`). -/
def New (orgRepoName ghAccessToken localVersion : String) : Updater :=
  { ReleasesUrl := "https://api.github.com/repos/" ++ orgRepoName ++ "/releases/latest"
    ChangelogUrl := "https://api.github.com/repos/" ++ orgRepoName ++ "/contents/CHANGELOG.md"
    LocalVersion := localVersion
    GhAccessToken := ghAccessToken
    DownloadChangelog := false
    lastRelease := none
    releaseAsset := none
    hasCancelFunc := false
    cancelled := false }

/-- A Go panic crossing the public boundary. -/
inductive GoPanic where
  | errorValue (msg : String)
  | indexOutOfRange (i : Int)
deriving DecidableEq, Repr

/-- Is an `Except GoPanic` outcome a normal (non-panicking) return? -/
def exOk {α : Type} : Except GoPanic α → Bool
  | .ok _ => true
  | .error _ => false

/-! ## CheckUpdates -/

/-- Environment for one `CheckUpdates` call: the outcome of the
`getLastRelease` HTTP fetch and of the `getChangelog` HTTP fetch (errors
carry the Go error message). -/
structure CheckEnv where
  lastReleaseResult : Except String GhRelease
  changelogResult : Except String String

/-- `parseHttpError` from `utils.go`. -/
def parseHttpError (err : String) : String :=
  if goContains err "connection refused" then "Unable to connect to the server"
  else err

/-- `CheckUpdates` from `gosu.go` (lines 380-441).  The fetched release is
retained in `lastRelease` as soon as the fetch succeeds, before any version
comparison.  On a changelog-fetch failure `getChangelog` returns the empty
string, which the code assigns to the details unconditionally. -/
def CheckUpdates (updater : Updater) (env : CheckEnv) :
    Except GoPanic (Updater × UpdateResult) :=
  match env.lastReleaseResult with
  | .error err =>
    .ok (updater,
      { Code := CODE_ERROR, Message := "Unable to get updates.",
        Details := parseHttpError err })
  | .ok lastRelease =>
    let updater := { updater with lastRelease := some lastRelease }
    match parseSemVer lastRelease.TagName, parseSemVer updater.LocalVersion with
    | some remoteSemver, some localSemver =>
      if semverCompare remoteSemver localSemver = .eq then
        .ok (updater,
          { Code := CODE_LATEST_VERSION_IS_ALREADY_IN_USE,
            Message := "You already use the latest version." })
      else if semverCompare remoteSemver localSemver = .lt then
        .ok (updater,
          { Code := CODE_UNRELEASED_VERSION_IS_IN_USE,
            Message := "You use the unreleased version." })
      else
        let lastReleaseDetails :=
          if updater.DownloadChangelog then
            match env.changelogResult with
            | .ok changelog => changelog
            | .error _ => ""
          else lastRelease.Body
        .ok (updater,
          { Code := CODE_NEW_VERSION_DETECTED,
            Message := "New version detected. Current version is " ++
              updater.LocalVersion ++ ", new version is " ++
              lastRelease.TagName ++ ". Download update?",
            Details := lastReleaseDetails })
    | _, _ =>
      .ok (updater,
        { Code := CODE_ERROR,
          Message := "Unable to get updates. The SemVer is invalid." })

/-! ## Asset selection (`DownloadAsset`, lines 460-481) -/

/-- Go `slices.IndexFunc`: index of the first element satisfying `p`,
or `-1` when none does. -/
def indexFuncAux {α : Type} (p : α → Bool) : List α → Nat → Int
  | [], _ => -1
  | x :: xs, i => if p x then Int.ofNat i else indexFuncAux p xs (i + 1)

/-- Go `slices.IndexFunc` starting at index 0. -/
def indexFunc {α : Type} (p : α → Bool) (l : List α) : Int :=
  indexFuncAux p l 0

/-- Go slice indexing `l[i]`: panics (index out of range) when `i` is
negative or past the end. -/
def goIndexGet (l : List GhReleaseAsset) (i : Int) : Except GoPanic GhReleaseAsset :=
  if h : 0 ≤ i ∧ i.toNat < l.length then .ok (l.get ⟨i.toNat, h.2⟩)
  else .error (.indexOutOfRange i)

/-- The platform branch of `DownloadAsset`: `.ok (some asset)` when the OS
matched and an asset was found, `.ok none` for an unsupported OS (the caller
turns this into the `CODE_ERROR` result), and `.error` when
`slices.IndexFunc` returned `-1` and `Assets[-1]` panics. -/
def selectReleaseAsset (goos : String) (assets : List GhReleaseAsset) :
    Except GoPanic (Option GhReleaseAsset) :=
  if goContains goos "linux" then
    match goIndexGet assets (indexFunc (fun a => goContains a.Name "-linux") assets) with
    | .ok a => .ok (some { a with updateScriptName := LINUX_SCRIPT_NAME,
                                  updateScriptBody := linuxScript })
    | .error p => .error p
  else if goContains goos "windows" then
    match goIndexGet assets (indexFunc (fun a => goContains a.Name "-win") assets) with
    | .ok a => .ok (some { a with updateScriptName := WIN_SCRIPT_NAME,
                                  updateScriptBody := windowsScript })
    | .error p => .error p
  else .ok none

/-! ## Progress polling (`getDownloadingPercent`, lines 613-646)

The poller runs concurrently with the transfer, reading the destination
file's size each tick.  The sequence of sizes it observed while the transfer
was in flight (ticks on which the file did not yet exist are skipped by the
`os.IsNotExist` branch) is supplied by the environment, and the poller's
effect is the list of samples it sent on the progress channel.

Go computes the percentage as
`int(float64(currentSize) / float64(totalSize) * 100)`; for the file sizes
involved (far below 2^53) this equals the truncated rational
`currentSize * 100 / totalSize`, which is how it is modelled; Go's
implementation-defined conversion of the infinite quotient for
`totalSize = 0` is modelled as 0, and no claim depends on that value. -/

/-- One loop iteration of `getDownloadingPercent` for an observed on-disk
size: a zero size is clamped to 1 before the percentage is computed. -/
def downloadingPercentTick (totalSize observed : Nat) : DownloadingProgress :=
  let currentSize := if observed = 0 then 1 else observed
  { TotalSize := totalSize
    CurrentSize := currentSize
    ProgressPercent := currentSize * 100 / totalSize }

/-- All samples emitted by `getDownloadingPercent` for the observed sizes. -/
def getDownloadingPercent (totalSize : Nat) (observedSizes : List Nat) :
    List DownloadingProgress :=
  observedSizes.map (downloadingPercentTick totalSize)

/-! ## The transfer (`downloadAsset`, lines 591-611)

`downloadAsset` delegates the byte transfer to an HTTP client configured
with `SetRetryCount(3)` and the download context.  Modelled from the spec:
the client's retry loop is not part of the repository sources; per the spec
the transfer performs a small fixed number of automatic retries on transient
failure but respects the cancellation token across retries, a cancellation
pre-empting any pending retry, and a cancelled transfer surfaces the
`context.Canceled` error.  The environment supplies which attempts would
succeed and after how many attempts the token fires. -/

/-- Outcome of the transfer together with the number of attempts started. -/
inductive TransferOutcome where
  | completed
  | cancelled
  | failed (e : String)
deriving DecidableEq, Repr

/-- Is the cancellation token triggered before attempt `i` starts?
`cancelAt = some k` means the token fires once `k` attempts have run. -/
def cancelTriggered (cancelAt : Option Nat) (i : Nat) : Bool :=
  match cancelAt with
  | none => false
  | some k => k ≤ i

/-- The bounded-retry loop: attempt `i` with `fuel` attempts remaining.
Checks the token before each attempt; a failed attempt with fuel left is
retried on the next index. -/
def transferLoop (succeeds : Nat → Bool) (cancelAt : Option Nat) :
    Nat → Nat → TransferOutcome × Nat
  | i, 0 => (.failed "request failed", i)
  | i, fuel + 1 =>
    if cancelTriggered cancelAt i then (.cancelled, i)
    else if succeeds i then (.completed, i + 1)
    else transferLoop succeeds cancelAt (i + 1) fuel

/-- The whole transfer: one initial attempt plus `SetRetryCount(3)` retries. -/
def runTransfer (succeeds : Nat → Bool) (cancelAt : Option Nat) :
    TransferOutcome × Nat :=
  transferLoop succeeds cancelAt 0 4

/-! ## DownloadAsset (lines 443-523) -/

/-- Environment for one `DownloadAsset` call: the value of `runtime.GOOS`,
the outcome of `removeFile` on the stale artifact, which transfer attempts
would succeed, when (if ever) the cancellation token fires, and the on-disk
sizes the concurrent poller observed while the transfer was in flight. -/
structure DownloadEnv where
  goos : String
  removeFileResult : Except String Unit
  succeeds : Nat → Bool
  cancelAt : Option Nat
  observedSizes : List Nat

/-- Observable outcome of a `DownloadAsset` call that returned (rather than
panicked): the session state, the returned result, the progress samples sent
on the channel in order, whether the deferred `close(progressCh)` ran before
the return, and how many transfer attempts were started. -/
structure DownloadOutput where
  updater : Updater
  result : UpdateResult
  samples : List DownloadingProgress
  progressClosed : Bool
  attemptsRun : Nat
deriving Repr

/-- The part of `DownloadAsset` (lines 481-523) after an asset was selected:
retain the asset, delete the stale file, run the poller and the transfer, and
on success send the final full sample before returning the completion
result. -/
def downloadPhase (u1 : Updater) (asset : GhReleaseAsset) (pc : Bool)
    (env : DownloadEnv) : DownloadOutput :=
  let u2 := { u1 with releaseAsset := some asset }
  match env.removeFileResult with
  | .error e =>
    { updater := u2
      result := { Code := CODE_ERROR,
                  Message := "Unable to delete the old asset: " ++ asset.Name,
                  Details := e }
      samples := [], progressClosed := pc, attemptsRun := 0 }
  | .ok _ =>
    let polled := if pc then getDownloadingPercent asset.Size env.observedSizes else []
    match runTransfer env.succeeds env.cancelAt with
    | (.cancelled, n) =>
      { updater := u2
        result := { Code := CODE_DOWNLOADING_CANCELLED,
                    Message := "The asset downloading has been cancelled." }
        samples := polled, progressClosed := pc, attemptsRun := n }
    | (.failed e, n) =>
      { updater := u2
        result := { Code := CODE_ERROR,
                    Message := "Unable to download asset.", Details := e }
        samples := polled, progressClosed := pc, attemptsRun := n }
    | (.completed, n) =>
      { updater := u2
        result := { Code := CODE_DOWNLOADING_COMPLETED,
                    Message := "A new application version downloaded successfully. Restart to complete update?" }
        samples := polled ++
          (if pc then [⟨asset.Size, asset.Size, 100⟩] else [])
        progressClosed := pc, attemptsRun := n }

/-- `DownloadAsset` from `gosu.go` (lines 443-523).  Panics when no release
was retained by a prior `CheckUpdates`; otherwise installs a fresh download
context (and its cancel function), selects the platform asset (panicking on
`Assets[-1]` when no name matches), and runs the download phase.  `pc` is
whether a progress channel was supplied; the deferred `close(progressCh)`
runs on every return path. -/
def DownloadAsset (updater : Updater) (pc : Bool) (env : DownloadEnv) :
    Except GoPanic DownloadOutput :=
  match updater.lastRelease with
  | none => .error (.errorValue "lastRelease is nil")
  | some lastRelease =>
    let u1 := { updater with hasCancelFunc := true, cancelled := false }
    match selectReleaseAsset env.goos lastRelease.Assets with
    | .error p => .error p
    | .ok none =>
      .ok { updater := u1
            result := { Code := CODE_ERROR,
                        Message := "Unsupported OS: " ++ env.goos }
            samples := [], progressClosed := pc, attemptsRun := 0 }
    | .ok (some asset) => .ok (downloadPhase u1 asset pc env)

/-! ## CancelAssetDownloading and UpdateApp -/

/-- `CancelAssetDownloading` (lines 525-532): panics when no download
context was ever created, otherwise triggers the token. -/
def CancelAssetDownloading (updater : Updater) : Except GoPanic Updater :=
  if updater.hasCancelFunc then .ok { updater with cancelled := true }
  else .error (.errorValue "cancelDownloading is nil")

/-- Environment for `UpdateApp`: outcome of `createAndRunExtractor`
(script write plus detached child start). -/
structure ApplyEnv where
  extractorResult : Except String Unit

/-- Outcome of `UpdateApp` short of a panic: either the process terminated
via `os.Exit(0)` after launching the extractor, or an error result. -/
inductive ApplyOutcome where
  | exited
  | result (r : UpdateResult)
deriving DecidableEq, Repr

/-- `UpdateApp` (lines 534-552): panics when no asset was retained by a
prior `DownloadAsset`; a failing extractor yields a recoverable error
result; success terminates the process. -/
def UpdateApp (updater : Updater) (env : ApplyEnv) : Except GoPanic ApplyOutcome :=
  match updater.releaseAsset with
  | none => .error (.errorValue "releaseAsset is nil")
  | some _ =>
    match env.extractorResult with
    | .error e =>
      .ok (.result { Code := CODE_ERROR,
                     Message := "Unable to create or run extractor.",
                     Details := e })
    | .ok _ => .ok .exited

/-! ## Statement-side definitions and concrete fixtures -/

/-- The result code the spec prescribes for each version-comparison outcome
(remote compared against local). -/
def codeForCompare : Ordering → Nat
  | .eq => CODE_LATEST_VERSION_IS_ALREADY_IN_USE
  | .lt => CODE_UNRELEASED_VERSION_IS_IN_USE
  | .gt => CODE_NEW_VERSION_DETECTED

namespace Fx

/-- A release asset whose name carries the linux marker. -/
def assetLinux : GhReleaseAsset :=
  { Name := "app-2.0.0-linux.tar.gz"
    Url := "https://api.github.com/repos/o/r/releases/assets/1"
    Size := 10 }

/-- `assetLinux` as selected for linux (script annotations attached). -/
def selLinux : GhReleaseAsset :=
  { assetLinux with updateScriptName := LINUX_SCRIPT_NAME,
                    updateScriptBody := linuxScript }

/-- An asset for a platform the component does not recognize. -/
def assetMac : GhReleaseAsset :=
  { Name := "app-2.0.0-macos.tar.gz"
    Url := "https://api.github.com/repos/o/r/releases/assets/2"
    Size := 10 }

/-- The latest release: tag 2.0.0 with a linux asset. -/
def rel2 : GhRelease :=
  { TagName := "2.0.0"
    CreatedAt := "2026-01-01T00:00:00Z"
    Assets := [assetLinux]
    Body := "Release notes for 2.0.0" }

/-- A release whose tag is not a well-formed semantic version. -/
def relBad : GhRelease := { rel2 with TagName := "not-a-version" }

/-- A release with no asset matching any platform marker. -/
def relNoMatch : GhRelease := { rel2 with Assets := [assetMac] }

/-- A release whose linux asset reports size zero. -/
def relZeroSize : GhRelease :=
  { rel2 with Assets := [{ assetLinux with Size := 0 }] }

/-- A release with a one-byte linux asset. -/
def relOneByte : GhRelease :=
  { rel2 with Assets := [{ assetLinux with Size := 1 }] }

/-- A session on local version 1.3.0 (older than the 2.0.0 release). -/
def u13 : Updater := New "o/r" "" "1.3.0"

/-- A session on local version 2.0.0 (equal to the release). -/
def u20 : Updater := New "o/r" "" "2.0.0"

/-- Check environment: fetch succeeds with `rel2`, changelog succeeds. -/
def envOk : CheckEnv := ⟨.ok rel2, .ok "Full changelog text"⟩

/-- Check environment: fetch succeeds with the malformed tag. -/
def envBadTag : CheckEnv := ⟨.ok relBad, .ok ""⟩

/-- Check environment: fetch succeeds, changelog fetch fails. -/
def envNoChangelog : CheckEnv := ⟨.ok rel2, .error "Request failed with status code: 404. Not Found"⟩

/-- Download environment: linux, clean disk, first attempt succeeds, no
cancellation, poller saw the file at 0, 4 and 10 bytes. -/
def dlEnvOk : DownloadEnv :=
  { goos := "linux"
    removeFileResult := .ok ()
    succeeds := fun _ => true
    cancelAt := none
    observedSizes := [0, 4, 10] }

/-- Download environment: cancellation fires before the first attempt,
poller saw only the empty file. -/
def dlEnvCancel : DownloadEnv :=
  { dlEnvOk with succeeds := fun _ => false, cancelAt := some 0,
                 observedSizes := [0] }

/-- Download environment: first attempt fails, cancellation fires before
the first retry. -/
def dlEnvCancelAfterOne : DownloadEnv :=
  { dlEnvOk with succeeds := fun _ => false, cancelAt := some 1,
                 observedSizes := [0, 4] }

/-- Session after `CheckUpdates` on `u13` retained `rel2`. -/
def u13r : Updater := { u13 with lastRelease := some rel2 }

/-- Session after `DownloadAsset` on `u13r` selected the linux asset. -/
def u13sel : Updater :=
  { u13r with hasCancelFunc := true, releaseAsset := some selLinux }

/-- `u13` with the changelog opt-in switched on. -/
def u13cl : Updater := { u13 with DownloadChangelog := true }

/-- Session after `CheckUpdates` on `u20` retained `rel2`. -/
def u20r : Updater := { u20 with lastRelease := some rel2 }

/-- Session after `DownloadAsset` on `u20r` selected the linux asset. -/
def u20sel : Updater :=
  { u20r with hasCancelFunc := true, releaseAsset := some selLinux }

/-- Session holding the release with no matching asset. -/
def uNoMatch : Updater := { u20 with lastRelease := some relNoMatch }

/-- Session holding the zero-size-asset release. -/
def uZero : Updater := { u20 with lastRelease := some relZeroSize }

/-- Session after selection of the zero-size asset. -/
def uZeroSel : Updater :=
  { uZero with hasCancelFunc := true,
               releaseAsset := some { selLinux with Size := 0 } }

/-- Session holding the one-byte-asset release. -/
def uOne : Updater := { u20 with lastRelease := some relOneByte }

/-- The observable output of `DownloadAsset u13r true dlEnvOk`. -/
def outOk : DownloadOutput :=
  { updater := u13sel
    result := { Code := CODE_DOWNLOADING_COMPLETED,
                Message := "A new application version downloaded successfully. Restart to complete update?" }
    samples := [⟨10, 1, 10⟩, ⟨10, 4, 40⟩, ⟨10, 10, 100⟩, ⟨10, 10, 100⟩]
    progressClosed := true
    attemptsRun := 1 }

/-- The observable output of `DownloadAsset u20r true dlEnvCancel`. -/
def outCancel : DownloadOutput :=
  { updater := u20sel
    result := { Code := CODE_DOWNLOADING_CANCELLED,
                Message := "The asset downloading has been cancelled." }
    samples := [⟨10, 1, 10⟩]
    progressClosed := true
    attemptsRun := 0 }

/-- The observable output of `DownloadAsset uZero true` with the poller
having seen 5 bytes on disk. -/
def outZero : DownloadOutput :=
  { updater := uZeroSel
    result := { Code := CODE_DOWNLOADING_COMPLETED,
                Message := "A new application version downloaded successfully. Restart to complete update?" }
    samples := [⟨0, 5, 0⟩, ⟨0, 0, 100⟩]
    progressClosed := true
    attemptsRun := 1 }

end Fx

/-! ## Helper lemmas -/

/-- `CheckUpdates` returns a result on every input: no branch panics. -/
theorem checkUpdates_total (u : Updater) (env : CheckEnv) :
    ∃ r, CheckUpdates u env = .ok r := by
  unfold CheckUpdates
  repeat' first
    | exact ⟨_, rfl⟩
    | dsimp only
    | split

/-- The updater of every `downloadPhase` output is the input session with
the selected asset retained. -/
theorem downloadPhase_updater (u1 : Updater) (a : GhReleaseAsset) (pc : Bool)
    (env : DownloadEnv) :
    (downloadPhase u1 a pc env).updater = { u1 with releaseAsset := some a } := by
  unfold downloadPhase
  repeat' split
  all_goals rfl

/-- The deferred `close(progressCh)` runs on every `downloadPhase` return. -/
theorem downloadPhase_closed (u1 : Updater) (a : GhReleaseAsset) (pc : Bool)
    (env : DownloadEnv) :
    (downloadPhase u1 a pc env).progressClosed = pc := by
  unfold downloadPhase
  repeat' split
  all_goals rfl

/-- The sample list of a `downloadPhase` run is empty, the poller's samples,
or the poller's samples followed by the final full sample. -/
theorem downloadPhase_samples (u1 : Updater) (a : GhReleaseAsset) (pc : Bool)
    (env : DownloadEnv) :
    (downloadPhase u1 a pc env).samples = [] ∨
    (downloadPhase u1 a pc env).samples =
      getDownloadingPercent a.Size env.observedSizes ∨
    (downloadPhase u1 a pc env).samples =
      getDownloadingPercent a.Size env.observedSizes ++ [⟨a.Size, a.Size, 100⟩] := by
  unfold downloadPhase
  repeat' split
  all_goals first
    | exact Or.inl rfl
    | exact Or.inr (Or.inl rfl)
    | exact Or.inr (Or.inr rfl)

/-- With a progress channel supplied, the result code of a `downloadPhase`
run determines the shape of its sample list: the final full sample is
present exactly on completion. -/
theorem downloadPhase_shape (u1 : Updater) (a : GhReleaseAsset)
    (env : DownloadEnv) :
    ((downloadPhase u1 a true env).result.Code = CODE_ERROR ∧
      (downloadPhase u1 a true env).samples = []) ∨
    (((downloadPhase u1 a true env).result.Code = CODE_DOWNLOADING_CANCELLED ∨
      (downloadPhase u1 a true env).result.Code = CODE_ERROR) ∧
      (downloadPhase u1 a true env).samples =
        getDownloadingPercent a.Size env.observedSizes) ∨
    ((downloadPhase u1 a true env).result.Code = CODE_DOWNLOADING_COMPLETED ∧
      (downloadPhase u1 a true env).samples =
        getDownloadingPercent a.Size env.observedSizes ++ [⟨a.Size, a.Size, 100⟩]) := by
  unfold downloadPhase
  repeat' split
  all_goals first
    | exact Or.inl ⟨rfl, rfl⟩
    | exact Or.inr (Or.inl ⟨Or.inl rfl, rfl⟩)
    | exact Or.inr (Or.inl ⟨Or.inr rfl, rfl⟩)
    | exact Or.inr (Or.inr ⟨rfl, rfl⟩)
    | simp_all

/-- Every sample a `downloadPhase` run emits carries the selected asset's
embedded size as its total. -/
theorem downloadPhase_samples_total (u1 : Updater) (a : GhReleaseAsset)
    (pc : Bool) (env : DownloadEnv) :
    ∀ smp ∈ (downloadPhase u1 a pc env).samples, smp.TotalSize = a.Size := by
  intro smp hsmp
  rcases downloadPhase_samples u1 a pc env with hs | hs | hs <;> rw [hs] at hsmp
  · exact absurd hsmp (List.not_mem_nil smp)
  · simp only [getDownloadingPercent, List.mem_map] at hsmp
    obtain ⟨s, -, hq⟩ := hsmp
    rw [← hq]
    rfl
  · rcases List.mem_append.1 hsmp with hm | hm
    · simp only [getDownloadingPercent, List.mem_map] at hm
      obtain ⟨s, -, hq⟩ := hm
      rw [← hq]
      rfl
    · rw [List.mem_singleton.1 hm]

/-- Case analysis for a `DownloadAsset` call that returned: either the OS
was unsupported, or an asset was selected and the download phase ran. -/
theorem downloadAsset_ok_cases (u : Updater) (pc : Bool) (env : DownloadEnv)
    (out : DownloadOutput) (h : DownloadAsset u pc env = .ok out) :
    ∃ rel, u.lastRelease = some rel ∧
      ((selectReleaseAsset env.goos rel.Assets = .ok none ∧
        out = { updater := { u with hasCancelFunc := true, cancelled := false }
                result := { Code := CODE_ERROR,
                            Message := "Unsupported OS: " ++ env.goos }
                samples := [], progressClosed := pc, attemptsRun := 0 }) ∨
       (∃ a, selectReleaseAsset env.goos rel.Assets = .ok (some a) ∧
        out = downloadPhase { u with hasCancelFunc := true, cancelled := false }
                a pc env)) := by
  unfold DownloadAsset at h
  rcases hL : u.lastRelease with _ | rel
  · rw [hL] at h
    exact absurd h (by simp)
  · rw [hL] at h
    dsimp only at h
    refine ⟨rel, rfl, ?_⟩
    rcases hS : selectReleaseAsset env.goos rel.Assets with p | oa
    · rw [hS] at h
      exact absurd h (by simp)
    · rw [hS] at h
      rcases oa with _ | a
      · simp only [Except.ok.injEq] at h
        exact Or.inl ⟨rfl, h.symm⟩
      · simp only [Except.ok.injEq] at h
        exact Or.inr ⟨a, rfl, h.symm⟩

/-- Every `DownloadAsset` return leaves the session with a live cancel
function (the download context is installed before any other step). -/
theorem downloadAsset_ok_hasCancel (u : Updater) (pc : Bool)
    (env : DownloadEnv) (out : DownloadOutput)
    (h : DownloadAsset u pc env = .ok out) :
    out.updater.hasCancelFunc = true := by
  obtain ⟨rel, -, hcase | ⟨a, -, hout⟩⟩ := downloadAsset_ok_cases u pc env out h
  · rw [hcase.2]
  · rw [hout, downloadPhase_updater]

/-- The clamped current size is monotone in the observed size. -/
theorem percent_tick_mono (T : Nat) {s t : Nat} (hst : s ≤ t) :
    (downloadingPercentTick T s).ProgressPercent ≤
      (downloadingPercentTick T t).ProgressPercent := by
  unfold downloadingPercentTick
  dsimp only
  apply Nat.div_le_div_right
  apply Nat.mul_le_mul_right
  split <;> split <;> omega

/-- A sample for an observed size within the total never exceeds 100%. -/
theorem percent_tick_le_100 (T : Nat) {s : Nat} (hs : s ≤ T) :
    (downloadingPercentTick T s).ProgressPercent ≤ 100 := by
  unfold downloadingPercentTick
  dsimp only
  rcases Nat.eq_zero_or_pos T with hT | hT
  · subst hT
    simp
  · have hc : (if s = 0 then 1 else s) ≤ T := by split <;> omega
    calc (if s = 0 then 1 else s) * 100 / T ≤ T * 100 / T := by
          exact Nat.div_le_div_right (Nat.mul_le_mul_right 100 hc)
      _ = 100 := Nat.mul_div_cancel_left 100 hT

/-- A sample whose clamped current size is below the total stays below
100%. -/
theorem percent_tick_lt_100 (T : Nat) {s : Nat}
    (h : (if s = 0 then 1 else s) < T) :
    (downloadingPercentTick T s).ProgressPercent < 100 := by
  unfold downloadingPercentTick
  dsimp only
  have hT : 0 < T := lt_of_le_of_lt (Nat.zero_le _) h
  rw [Nat.div_lt_iff_lt_mul hT]
  generalize hc : (if s = 0 then 1 else s) = c at h
  omega

/-- The poller's percent sequence is monotone along monotone observed
sizes. -/
theorem getDownloadingPercent_chain (T : Nat) (obs : List Nat)
    (hobs : obs.Chain' (· ≤ ·)) :
    ((getDownloadingPercent T obs).map
      (fun smp => smp.ProgressPercent)).Chain' (· ≤ ·) := by
  unfold getDownloadingPercent
  rw [List.map_map, List.chain'_map]
  exact hobs.imp (fun a b hab => percent_tick_mono T hab)

/-- With a cancellation fired after `k` attempts, none of which succeeded,
the transfer loop stops with the cancelled outcome after exactly those `k`
attempts: no attempt at or past the trigger runs. -/
theorem transferLoop_cancel (succeeds : Nat → Bool) (k : Nat) :
    ∀ fuel i, i ≤ k → k < i + fuel →
      (∀ j, j < k → succeeds j = false) →
      transferLoop succeeds (some k) i fuel = (.cancelled, k) := by
  intro fuel
  induction fuel with
  | zero => intro i h1 h2 _; omega
  | succ n ih =>
    intro i h1 h2 h3
    unfold transferLoop
    by_cases hik : k ≤ i
    · have hi : i = k := le_antisymm h1 hik
      subst hi
      simp [cancelTriggered]
    · have hlt : i < k := by omega
      have hno : cancelTriggered (some k) i = false := by
        simp [cancelTriggered]
        omega
      rw [hno, if_neg (by simp), h3 i hlt, if_neg (by simp)]
      exact ih (i + 1) hlt (by omega) h3

/-! ## Claim theorems -/

/-- Claim C1: for every pair of well-formed semantic versions, `CheckUpdates`
returns the already-latest code when remote equals local, the unreleased
code when remote is below local, and the new-version code when remote is
above local; the three codes are pairwise distinct, so exactly one of them
is returned. -/
theorem checkUpdates_code_matches_semver_order
    (u : Updater) (env : CheckEnv) (rel : GhRelease)
    (remoteSemver localSemver : SemVer)
    (hfetch : env.lastReleaseResult = .ok rel)
    (hr : parseSemVer rel.TagName = some remoteSemver)
    (hl : parseSemVer u.LocalVersion = some localSemver) :
    ∃ u' res, CheckUpdates u env = .ok (u', res) ∧
      res.Code = codeForCompare (semverCompare remoteSemver localSemver) ∧
      codeForCompare .eq ≠ codeForCompare .lt ∧
      codeForCompare .eq ≠ codeForCompare .gt ∧
      codeForCompare .lt ≠ codeForCompare .gt := by
  unfold CheckUpdates
  rw [hfetch]
  dsimp only
  rw [hr, hl]
  dsimp only
  rcases hcmp : semverCompare remoteSemver localSemver with _ | _ | _ <;>
    exact ⟨_, _, rfl, rfl, by decide, by decide, by decide⟩

/-- Witness for C1 at the concrete pair remote 2.0.0, local 1.3.0. -/
theorem checkUpdates_code_matches_semver_order_witness :
    ∃ u' res, CheckUpdates Fx.u13 Fx.envOk = .ok (u', res) ∧
      res.Code = codeForCompare (semverCompare ⟨2, 0, 0, [], ""⟩ ⟨1, 3, 0, [], ""⟩) ∧
      codeForCompare .eq ≠ codeForCompare .lt ∧
      codeForCompare .eq ≠ codeForCompare .gt ∧
      codeForCompare .lt ≠ codeForCompare .gt :=
  checkUpdates_code_matches_semver_order Fx.u13 Fx.envOk Fx.rel2
    ⟨2, 0, 0, [], ""⟩ ⟨1, 3, 0, [], ""⟩ rfl rfl rfl

/-- Claim C2: whenever the remote tag or the local version fails to parse as
a semantic version, `CheckUpdates` returns the error-code result; moreover
`CheckUpdates` returns normally on every input, so no panic crosses the
public boundary. -/
theorem checkUpdates_malformed_semver_error_no_panic
    (u : Updater) (env : CheckEnv) (rel : GhRelease)
    (hfetch : env.lastReleaseResult = .ok rel)
    (hbad : parseSemVer rel.TagName = none ∨ parseSemVer u.LocalVersion = none) :
    (∃ u', CheckUpdates u env =
      .ok (u', { Code := CODE_ERROR,
                 Message := "Unable to get updates. The SemVer is invalid." })) ∧
    ∀ (u2 : Updater) (env2 : CheckEnv), ∃ r, CheckUpdates u2 env2 = .ok r := by
  refine ⟨?_, checkUpdates_total⟩
  unfold CheckUpdates
  rw [hfetch]
  dsimp only
  rcases hbad with hb | hb
  · rw [hb]
    exact ⟨_, rfl⟩
  · rw [hb]
    rcases parseSemVer rel.TagName with _ | r
    · exact ⟨_, rfl⟩
    · exact ⟨_, rfl⟩

/-- Witness for C2 at the concrete malformed remote tag. -/
theorem checkUpdates_malformed_semver_error_no_panic_witness :
    (∃ u', CheckUpdates Fx.u13 Fx.envBadTag =
      .ok (u', { Code := CODE_ERROR,
                 Message := "Unable to get updates. The SemVer is invalid." })) ∧
    ∀ (u2 : Updater) (env2 : CheckEnv), ∃ r, CheckUpdates u2 env2 = .ok r :=
  checkUpdates_malformed_semver_error_no_panic Fx.u13 Fx.envBadTag Fx.relBad
    rfl (Or.inl rfl)

/-- Claim C3 counterexample: a `CheckUpdates` that returned the
already-latest code (not the new-version code) still retains the release, so
the following `DownloadAsset` does not panic; and a `DownloadAsset` that was
cancelled (did not complete) still retains the selected asset, so the
following `UpdateApp` does not panic either. -/
theorem download_apply_no_panic_without_required_predecessor :
    (CheckUpdates Fx.u20 Fx.envOk).map (fun p => (p.1, p.2.Code)) =
      .ok (Fx.u20r, CODE_LATEST_VERSION_IS_ALREADY_IN_USE) ∧
    CODE_LATEST_VERSION_IS_ALREADY_IN_USE ≠ CODE_NEW_VERSION_DETECTED ∧
    (DownloadAsset Fx.u20r true Fx.dlEnvCancel).map
      (fun o => (o.updater, o.result.Code)) =
      .ok (Fx.u20sel, CODE_DOWNLOADING_CANCELLED) ∧
    CODE_DOWNLOADING_CANCELLED ≠ CODE_DOWNLOADING_COMPLETED ∧
    UpdateApp Fx.u20sel ⟨.ok ()⟩ = .ok .exited :=
  ⟨rfl, by decide, rfl, by decide, rfl⟩

/-- Claim C3 amended: `DownloadAsset` panics exactly when no release was
ever retained by a `CheckUpdates` whose fetch succeeded, and `UpdateApp`
panics exactly when no `DownloadAsset` ever got past asset selection; both
are fatal panics, not recoverable error results. -/
theorem download_and_apply_panic_when_session_state_unset
    (u v : Updater) (pc : Bool) (denv : DownloadEnv) (aenv : ApplyEnv)
    (hd : u.lastRelease = none) (ha : v.releaseAsset = none) :
    DownloadAsset u pc denv = .error (.errorValue "lastRelease is nil") ∧
    UpdateApp v aenv = .error (.errorValue "releaseAsset is nil") := by
  constructor
  · unfold DownloadAsset
    rw [hd]
  · unfold UpdateApp
    rw [ha]

/-- Witness for the amended C3 on a freshly constructed session. -/
theorem download_and_apply_panic_when_session_state_unset_witness :
    DownloadAsset (New "o/r" "" "1.0.0") true Fx.dlEnvOk =
      .error (.errorValue "lastRelease is nil") ∧
    UpdateApp (New "o/r" "" "1.0.0") ⟨.ok ()⟩ =
      .error (.errorValue "releaseAsset is nil") :=
  download_and_apply_panic_when_session_state_unset
    (New "o/r" "" "1.0.0") (New "o/r" "" "1.0.0") true Fx.dlEnvOk ⟨.ok ()⟩ rfl rfl

/-- Claim C6: when the host opted in to the changelog and its fetch fails,
the check still returns the new-version code, but the details field becomes
the empty string (the failed fetch's empty changelog is assigned
unconditionally), not the release's own notes, which are nonempty here. -/
theorem changelog_failure_keeps_new_version_but_empties_details :
    (CheckUpdates Fx.u13cl Fx.envNoChangelog).map
      (fun p => (p.2.Code, p.2.Details)) =
      .ok (CODE_NEW_VERSION_DETECTED, "") ∧
    Fx.rel2.Body = "Release notes for 2.0.0" ∧
    "" ≠ "Release notes for 2.0.0" :=
  ⟨rfl, rfl, by decide⟩

/-- Claim C7: on linux, a release none of whose asset names contains the
linux marker makes `DownloadAsset` panic with an index-out-of-range on
`Assets[-1]` instead of returning a recoverable no-matching-asset error; an
unrecognized operating system, by contrast, yields a recoverable error
result. -/
theorem no_matching_asset_panics_unsupported_os_errors :
    DownloadAsset Fx.uNoMatch true Fx.dlEnvOk =
      .error (.indexOutOfRange (-1)) ∧
    (DownloadAsset Fx.uNoMatch true { Fx.dlEnvOk with goos := "plan9" }).map
      (fun o => (o.result.Code, o.result.Message)) =
      .ok (CODE_ERROR, "Unsupported OS: plan9") :=
  ⟨rfl, rfl⟩

/-- Claim C8 counterexample: `CancelAssetDownloading` on a session with no
download ever started panics — a fatal error, not the reported, non-fatal
failure the claim describes. -/
theorem cancel_without_download_panics :
    CancelAssetDownloading (New "o/r" "" "1.0.0") =
      .error (.errorValue "cancelDownloading is nil") := rfl

/-- Claim C8 amended: `CancelAssetDownloading` panics when no download was
ever started; once a cancel function exists it triggers the token, doing so
is idempotent, and after any `DownloadAsset` return (completion included) a
cancellation request still succeeds as a no-op on the token. -/
theorem cancel_idempotent_and_noop_after_download
    (u v w : Updater) (pc : Bool) (env : DownloadEnv) (out : DownloadOutput)
    (hno : u.hasCancelFunc = false)
    (hyes : v.hasCancelFunc = true)
    (hdl : DownloadAsset w pc env = .ok out) :
    CancelAssetDownloading u = .error (.errorValue "cancelDownloading is nil") ∧
    CancelAssetDownloading v = .ok { v with cancelled := true } ∧
    CancelAssetDownloading { v with cancelled := true } =
      .ok { v with cancelled := true } ∧
    CancelAssetDownloading out.updater = .ok { out.updater with cancelled := true } := by
  refine ⟨?_, ?_, ?_, ?_⟩
  · unfold CancelAssetDownloading
    rw [hno]
    rfl
  · unfold CancelAssetDownloading
    rw [hyes]
    rfl
  · unfold CancelAssetDownloading
    show (if v.hasCancelFunc = true then _ else _) = _
    rw [hyes]
    rfl
  · unfold CancelAssetDownloading
    dsimp only
    rw [downloadAsset_ok_hasCancel w pc env out hdl]
    rfl

/-- Witness for the amended C8 on concrete sessions and a concrete
cancelled download. -/
theorem cancel_idempotent_and_noop_after_download_witness :
    CancelAssetDownloading (New "o/r" "" "1.0.0") =
      .error (.errorValue "cancelDownloading is nil") ∧
    CancelAssetDownloading Fx.u20sel = .ok { Fx.u20sel with cancelled := true } ∧
    CancelAssetDownloading { Fx.u20sel with cancelled := true } =
      .ok { Fx.u20sel with cancelled := true } ∧
    CancelAssetDownloading Fx.outCancel.updater =
      .ok { Fx.outCancel.updater with cancelled := true } :=
  cancel_idempotent_and_noop_after_download
    (New "o/r" "" "1.0.0") Fx.u20sel Fx.u20r true Fx.dlEnvCancel Fx.outCancel
    rfl rfl rfl

/-- Claim C4 counterexample: a one-byte asset whose download is cancelled
before any byte lands still delivers a 100% sample, because the empty
file's size is clamped to a minimum of 1, which already equals the total. -/
theorem cancelled_one_byte_download_emits_full_percent :
    (DownloadAsset Fx.uOne true Fx.dlEnvCancel).map
      (fun o => (o.result.Code, o.samples)) =
      .ok (CODE_DOWNLOADING_CANCELLED, [⟨1, 1, 100⟩]) ∧
    CODE_DOWNLOADING_CANCELLED ≠ CODE_DOWNLOADING_COMPLETED :=
  ⟨rfl, by decide⟩

/-- Claim C4 amended: with a progress channel supplied and the poller's
observed on-disk sizes non-decreasing and within the asset size, a completed
download's percent sequence is non-decreasing and its last sample is exactly
the full sample (sent before the completion result is returned); a cancelled
or failed download delivers no 100% sample provided every observed size,
after the minimum-of-1 clamp, stays below the asset size — the clamp makes a
cancelled 1-byte download the lone exception. -/
theorem progress_monotone_final_full_sample
    (u : Updater) (env : DownloadEnv) (out : DownloadOutput) (a : GhReleaseAsset)
    (h : DownloadAsset u true env = .ok out)
    (hsel : out.updater.releaseAsset = some a) :
    (out.result.Code = CODE_DOWNLOADING_COMPLETED →
      env.observedSizes.Chain' (· ≤ ·) →
      (∀ s ∈ env.observedSizes, s ≤ a.Size) →
      ((out.samples.map (fun smp => smp.ProgressPercent)).Chain' (· ≤ ·) ∧
        out.samples.getLast? = some ⟨a.Size, a.Size, 100⟩)) ∧
    ((out.result.Code = CODE_DOWNLOADING_CANCELLED ∨
        out.result.Code = CODE_ERROR) →
      (∀ s ∈ env.observedSizes, (if s = 0 then 1 else s) < a.Size) →
      ∀ smp ∈ out.samples, smp.ProgressPercent < 100) := by
  obtain ⟨rel, -, ⟨-, hout⟩ | ⟨b, -, hout⟩⟩ := downloadAsset_ok_cases u true env out h
  · subst hout
    constructor
    · intro hcode
      simp [CODE_ERROR, CODE_DOWNLOADING_COMPLETED] at hcode
    · intro _ _ smp hsmp
      exact absurd hsmp (List.not_mem_nil smp)
  · subst hout
    rw [downloadPhase_updater] at hsel
    have hba : b = a := by simpa using hsel
    subst hba
    rcases downloadPhase_shape
        { u with hasCancelFunc := true, cancelled := false } b env with
      ⟨hc, hsamp⟩ | ⟨hc, hsamp⟩ | ⟨hc, hsamp⟩
    · constructor
      · intro hcode
        exact absurd (hc.symm.trans hcode) (by decide)
      · intro _ _ smp hsmp
        rw [hsamp] at hsmp
        exact absurd hsmp (List.not_mem_nil smp)
    · constructor
      · intro hcode
        rcases hc with hc | hc <;> exact absurd (hc.symm.trans hcode) (by decide)
      · intro _ hbound smp hsmp
        rw [hsamp] at hsmp
        simp only [getDownloadingPercent, List.mem_map] at hsmp
        obtain ⟨s, hs, hq⟩ := hsmp
        rw [← hq]
        exact percent_tick_lt_100 b.Size (hbound s hs)
    · constructor
      · intro _ hchain hbound
        rw [hsamp]
        constructor
        · rw [List.map_append, List.chain'_append]
          refine ⟨getDownloadingPercent_chain b.Size env.observedSizes hchain,
            by simp, ?_⟩
          intro x hx y hy
          simp only [List.map_cons, List.map_nil, List.head?_cons,
            Option.mem_def, Option.some.injEq] at hy
          subst hy
          have hx2 : x ∈ (getDownloadingPercent b.Size env.observedSizes).map
              (fun smp => smp.ProgressPercent) := by
            rcases List.mem_getLast?_eq_getLast hx with ⟨hne, hxe⟩
            rw [hxe]
            exact List.getLast_mem hne
          simp only [getDownloadingPercent, List.map_map, List.mem_map] at hx2
          obtain ⟨s, hs, hq⟩ := hx2
          rw [← hq]
          exact percent_tick_le_100 b.Size (hbound s hs)
        · rw [List.getLast?_concat]
      · intro hcode
        rcases hcode with hx | hx <;> exact absurd (hc.symm.trans hx) (by decide)

/-- Witness for the amended C4 at a concrete completed run with samples at
10%, 40% and 100%. -/
theorem progress_monotone_final_full_sample_witness :
    (Fx.outOk.samples.map (fun smp => smp.ProgressPercent)).Chain' (· ≤ ·) ∧
      Fx.outOk.samples.getLast? = some ⟨10, 10, 100⟩ :=
  (progress_monotone_final_full_sample Fx.u13r Fx.dlEnvOk Fx.outOk Fx.selLinux
      rfl rfl).1 rfl (by simp [Fx.dlEnvOk, List.chain'_cons]) (by decide)

/-- Claim C5: a cancellation fired after `k` attempts, none of which had
succeeded, while attempts remained, makes `DownloadAsset` return the
distinct cancelled code (not the error code), and exactly those `k` attempts
ran — no retry is attempted after the cancellation. -/
theorem cancellation_yields_cancelled_code_and_no_retry
    (u : Updater) (rel : GhRelease) (a : GhReleaseAsset) (env : DownloadEnv)
    (pc : Bool) (k : Nat)
    (hrel : u.lastRelease = some rel)
    (hsel : selectReleaseAsset env.goos rel.Assets = .ok (some a))
    (hrm : env.removeFileResult = .ok ())
    (hc : env.cancelAt = some k) (hk : k < 4)
    (hnd : ∀ j, j < k → env.succeeds j = false) :
    ∃ out, DownloadAsset u pc env = .ok out ∧
      out.result.Code = CODE_DOWNLOADING_CANCELLED ∧
      out.result.Code ≠ CODE_ERROR ∧
      out.attemptsRun = k := by
  unfold DownloadAsset
  rw [hrel]
  dsimp only
  rw [hsel]
  unfold downloadPhase
  rw [hrm]
  dsimp only
  have ht : runTransfer env.succeeds env.cancelAt = (.cancelled, k) := by
    rw [hc]
    show transferLoop env.succeeds (some k) 0 4 = (.cancelled, k)
    exact transferLoop_cancel env.succeeds k 4 0 (Nat.zero_le k) (by omega) hnd
  rw [ht]
  dsimp only
  exact ⟨_, rfl, rfl,
    (show CODE_DOWNLOADING_CANCELLED ≠ CODE_ERROR by decide), rfl⟩

/-- Witness for C5: first attempt fails, the token fires before the first
retry; the result is the cancelled code after exactly one attempt. -/
theorem cancellation_yields_cancelled_code_and_no_retry_witness :
    ∃ out, DownloadAsset Fx.u20r true Fx.dlEnvCancelAfterOne = .ok out ∧
      out.result.Code = CODE_DOWNLOADING_CANCELLED ∧
      out.result.Code ≠ CODE_ERROR ∧
      out.attemptsRun = 1 :=
  cancellation_yields_cancelled_code_and_no_retry Fx.u20r Fx.rel2 Fx.selLinux
    Fx.dlEnvCancelAfterOne true 1 rfl rfl rfl rfl (by decide) (fun j hj => rfl)

/-- Claim C9 counterexample: no size probe exists anywhere in the download
path — a zero-size asset descriptor flows straight into the poller, so the
delivered samples carry a zero denominator while the run still completes. -/
theorem zero_size_asset_yields_zero_denominator :
    (DownloadAsset Fx.uZero true { Fx.dlEnvOk with observedSizes := [5] }).map
      (fun o => (o.result.Code, o.samples)) =
      .ok (CODE_DOWNLOADING_COMPLETED, [⟨0, 5, 0⟩, ⟨0, 0, 100⟩]) := rfl

/-- Claim C9 amended: the progress denominator of every delivered sample is
exactly the size embedded in the selected asset's descriptor from the
release metadata — no metadata probe ever replaces it, a zero embedded size
included. -/
theorem progress_denominator_is_embedded_asset_size
    (u : Updater) (pc : Bool) (env : DownloadEnv) (out : DownloadOutput)
    (h : DownloadAsset u pc env = .ok out) :
    ∀ smp ∈ out.samples, ∃ a, out.updater.releaseAsset = some a ∧
      smp.TotalSize = a.Size := by
  intro smp hsmp
  obtain ⟨rel, -, ⟨-, hout⟩ | ⟨a, -, hout⟩⟩ := downloadAsset_ok_cases u pc env out h
  · subst hout
    exact absurd hsmp (List.not_mem_nil smp)
  · subst hout
    refine ⟨a, ?_, ?_⟩
    · rw [downloadPhase_updater]
    · exact downloadPhase_samples_total _ a pc env smp hsmp

/-- Witness for the amended C9 at the zero-size run: the delivered sample's
denominator equals the embedded size 0. -/
theorem progress_denominator_is_embedded_asset_size_witness :
    ∃ a, Fx.outZero.updater.releaseAsset = some a ∧
      (⟨0, 5, 0⟩ : DownloadingProgress).TotalSize = a.Size :=
  progress_denominator_is_embedded_asset_size Fx.uZero true
    { Fx.dlEnvOk with observedSizes := [5] } Fx.outZero rfl ⟨0, 5, 0⟩ (by decide)

/-- Claim C10: whenever `DownloadAsset` is invoked with a progress channel
and returns — completed, cancelled, selection error or transfer error — the
deferred close of the channel has run before the return. -/
theorem progress_channel_closed_on_every_return
    (u : Updater) (env : DownloadEnv) (out : DownloadOutput)
    (h : DownloadAsset u true env = .ok out) :
    out.progressClosed = true := by
  obtain ⟨rel, -, ⟨-, hout⟩ | ⟨a, -, hout⟩⟩ := downloadAsset_ok_cases u true env out h
  · rw [hout]
  · rw [hout, downloadPhase_closed]

/-- Witness for C10 at the concrete completed run. -/
theorem progress_channel_closed_on_every_return_witness :
    Fx.outOk.progressClosed = true :=
  progress_channel_closed_on_every_return Fx.u13r Fx.dlEnvOk Fx.outOk rfl

end Gosu
